import Mathlib

/-
Verification of the rightmove scraping pipeline in `scrape/run_scrape.py`.

The source is a single-pass ETL script: fetch listing pages, extract the
JSON payload embedded in a `PAGE_MODEL = ` script assignment, decode it,
and project the decoded object through a fixed JMESPath mapping into a
flat record.  Below we give a shallow embedding of the pure computational
content of that script:

  * `Json`              — decoded JSON values (Python objects produced by
                          `json.loads`; Python `None` is `Json.null`).
  * `JPath` / `evalJPath` — the fragment of the JMESPath query language
                          actually used by the mapping table, with the
                          semantics of the `jmespath` Python package
                          (absent fields evaluate to null, projections
                          drop null results, multi-select hashes on null
                          are null).
  * `parse_map`, `parse_property` — the fixed mapping table and the
                          projection function (run_scrape.py lines 75-119).
  * `jsonLoads`         — a model of Python `json.loads` (a strict JSON
                          parser that rejects trailing data).
  * `extract_property`, `scrape_properties` — listing extraction and the
                          batch loop (lines 123-143); exceptions are
                          modelled with `Except`, and `asyncio.as_completed`
                          is modelled by letting the caller supply the
                          responses in completion order.
  * `find_locations_tokenize` — the query tokenization of
                          `find_locations` (lines 146-153).
  * `requestedOffsets`, `scrape_search` — the pagination of
                          `scrape_search` (lines 156-192).

Machine integers do not occur (Python ints are unbounded), so `Nat`/`Int`
are exact.  Python string methods are modelled on `List Char`; `.upper()`
is modelled character-wise by `Char.toUpper`.
-/

/-- Decoded JSON values.  Python `None` (both the decoding of the JSON
literal `null` and the `None` returned by `jmespath.search` for an
unresolvable path) is `Json.null`.  Numbers keep their source lexeme:
no arithmetic is ever performed on them, so this is a faithful
representation of their identity.  Objects are association lists in
insertion order, matching Python dicts. -/
inductive Json where
  | null : Json
  | bool (b : Bool) : Json
  | num (lexeme : String) : Json
  | str (s : String) : Json
  | arr (elems : List Json) : Json
  | obj (fields : List (String × Json)) : Json

/-- Field access, as in the `jmespath` package: `dict.get(name)` on a
dict (missing key gives null), null on any non-dict value. -/
def getField (name : String) : Json → Json
  | Json.obj fields => (fields.lookup name).getD Json.null
  | _ => Json.null

/-- The fragment of the JMESPath query language used by the mapping table
of `parse_property`:  dotted field chains `a.b.c`, list projections with
a field `src[*].f`, list projections into a multi-select hash
`src[*].\x7bk1: f1, ...\x7d`, and a multi-select hash applied to a field
`src.\x7bk1: f1, ...\x7d`. -/
inductive JPath where
  | chain (fields : List String) : JPath
  | projField (src : String) (f : String) : JPath
  | projHash (src : String) (pairs : List (String × String)) : JPath
  | fieldHash (src : String) (pairs : List (String × String)) : JPath
  deriving DecidableEq

/-- Semantics of the `jmespath` package on the fragment above:
projections over a non-list are null; projections drop elements whose
right-hand side evaluates to null; a multi-select hash evaluated against
null is null, and against any non-null value builds the object by field
access (which is null for non-dicts). -/
def evalJPath : JPath → Json → Json
  | JPath.chain fs, v => fs.foldl (fun acc n => getField n acc) v
  | JPath.projField src f, v =>
      match getField src v with
      | Json.arr xs =>
          Json.arr (xs.filterMap (fun x =>
            match getField f x with
            | Json.null => none
            | r => some r))
      | _ => Json.null
  | JPath.projHash src ps, v =>
      match getField src v with
      | Json.arr xs =>
          Json.arr (xs.filterMap (fun x =>
            match x with
            | Json.null => none
            | _ => some (Json.obj (ps.map (fun p => (p.1, getField p.2 x))))))
      | _ => Json.null
  | JPath.fieldHash src ps, v =>
      match getField src v with
      | Json.null => Json.null
      | x => Json.obj (ps.map (fun p => (p.1, getField p.2 x)))

/-- The fixed field-name-to-JMESPath mapping of `parse_property`
(run_scrape.py lines 78-114), in source insertion order, with each path
string parsed into the `JPath` fragment. -/
def parse_map : List (String × JPath) :=
  [ ("id", JPath.chain ["id"]),
    ("available", JPath.chain ["status", "published"]),
    ("archived", JPath.chain ["status", "archived"]),
    ("phone", JPath.chain ["contactInfo", "telephoneNumbers", "localNumber"]),
    ("bedrooms", JPath.chain ["bedrooms"]),
    ("bathrooms", JPath.chain ["bathrooms"]),
    ("type", JPath.chain ["transactionType"]),
    ("property_type", JPath.chain ["propertySubType"]),
    ("tags", JPath.chain ["tags"]),
    ("description", JPath.chain ["text", "description"]),
    ("title", JPath.chain ["text", "pageTitle"]),
    ("subtitle", JPath.chain ["text", "propertyPhrase"]),
    ("price", JPath.chain ["prices", "primaryPrice"]),
    ("price_sqft", JPath.chain ["prices", "pricePerSqFt"]),
    ("address", JPath.chain ["address"]),
    ("latitude", JPath.chain ["location", "latitude"]),
    ("longitude", JPath.chain ["location", "longitude"]),
    ("features", JPath.chain ["keyFeatures"]),
    ("history", JPath.chain ["listingHistory"]),
    ("photos", JPath.projHash "images" [("url", "url"), ("caption", "caption")]),
    ("floorplans", JPath.projHash "floorplans" [("url", "url"), ("caption", "caption")]),
    ("agency", JPath.fieldHash "customer"
      [("id", "branchId"), ("branch", "branchName"), ("company", "companyName"),
       ("address", "displayAddress"), ("commercial", "commercial"),
       ("buildToRent", "buildToRent"), ("isNew", "isNewHomeDeveloper")]),
    ("industryAffiliations", JPath.projField "industryAffiliations" "name"),
    ("nearest_airports", JPath.projHash "nearestAirports"
      [("name", "name"), ("distance", "distance")]),
    ("nearest_stations", JPath.projHash "nearestStations"
      [("name", "name"), ("distance", "distance")]),
    ("sizings", JPath.projHash "sizings"
      [("unit", "unit"), ("min", "minimumSize"), ("max", "maximumSize")]),
    ("brochures", JPath.chain ["brochures"]) ]

/-- A flat output record: field names to values, in insertion order
(Python dicts preserve insertion order). -/
def PropertyRecord : Type := List (String × Json)

/-- The projection `parse_property` (run_scrape.py lines 115-119): for
each entry of the mapping table, evaluate its path against the decoded
object and store the result under the entry's name. -/
def parse_property (data : Json) : PropertyRecord :=
  parse_map.map (fun kp => (kp.1, evalJPath kp.2 data))

example :
    (parse_property (Json.obj [("id", Json.str "1"), ("bedrooms", Json.num "3")])).lookup
      "bedrooms" = some (Json.num "3") := rfl

example : (parse_property Json.null).lookup "photos" = some Json.null := rfl

/-! Model of Python `json.loads`: a strict recursive-descent JSON reader.
Values keep their surface form (`Json.num` keeps the lexeme); trailing
non-whitespace after the value is an error, as in Python. -/

/-- The JSON whitespace characters. -/
def isJsonWs (c : Char) : Bool := c = ' ' || c = '\t' || c = '\n' || c = '\r'

/-- Drop leading JSON whitespace. -/
def jws (l : List Char) : List Char := l.dropWhile isJsonWs

/-- Value of a hexadecimal digit. -/
def hexVal (c : Char) : Option Nat :=
  if '0' ≤ c ∧ c ≤ '9' then some (c.toNat - '0'.toNat)
  else if 'a' ≤ c ∧ c ≤ 'f' then some (c.toNat - 'a'.toNat + 10)
  else if 'A' ≤ c ∧ c ≤ 'F' then some (c.toNat - 'A'.toNat + 10)
  else none

/-- Decoding of a single-character JSON string escape. -/
def escChar (c : Char) : Option Char :=
  if c = '"' then some '"'
  else if c = '\\' then some '\\'
  else if c = '/' then some '/'
  else if c = 'b' then some (Char.ofNat 8)
  else if c = 'f' then some (Char.ofNat 12)
  else if c = 'n' then some '\n'
  else if c = 'r' then some '\r'
  else if c = 't' then some '\t'
  else none

/-- Read the characters of a JSON string literal after the opening quote,
up to and including the closing quote; unescaped control characters and
bad escapes are errors, as in Python's decoder. -/
def parseStrChars : List Char → Except Unit (List Char × List Char)
  | [] => Except.error ()
  | '"' :: r => Except.ok ([], r)
  | '\\' :: e :: r =>
      if e = 'u' then
        match r with
        | a :: b :: c :: d :: r2 =>
            (match hexVal a, hexVal b, hexVal c, hexVal d with
             | some ha, some hb, some hc, some hd => do
                 let (s, rest) ← parseStrChars r2
                 Except.ok (Char.ofNat (((ha * 16 + hb) * 16 + hc) * 16 + hd) :: s, rest)
             | _, _, _, _ => Except.error ())
        | _ => Except.error ()
      else
        match escChar e with
        | some ec => do
            let (s, rest) ← parseStrChars r
            Except.ok (ec :: s, rest)
        | none => Except.error ()
  | c :: r =>
      if c.toNat < 32 then Except.error ()
      else do
        let (s, rest) ← parseStrChars r
        Except.ok (c :: s, rest)

/-- Read an optional fraction part `.digits`. -/
def parseFracPart : List Char → Except Unit (List Char × List Char)
  | '.' :: r =>
      let fs := r.takeWhile Char.isDigit
      if fs = [] then Except.error ()
      else Except.ok ('.' :: fs, r.dropWhile Char.isDigit)
  | l => Except.ok ([], l)

/-- Read an optional exponent part `e[+-]digits`. -/
def parseExpPart : List Char → Except Unit (List Char × List Char)
  | c :: r =>
      if c = 'e' ∨ c = 'E' then
        let sr : List Char × List Char :=
          match r with
          | s :: r2 => if s = '+' ∨ s = '-' then ([s], r2) else ([], r)
          | [] => ([], [])
        let es := sr.2.takeWhile Char.isDigit
        if es = [] then Except.error ()
        else Except.ok (c :: sr.1 ++ es, sr.2.dropWhile Char.isDigit)
      else Except.ok ([], c :: r)
  | [] => Except.ok ([], [])

/-- Read a JSON number, keeping its lexeme; leading zeros are rejected,
as in the JSON grammar. -/
def parseNumber (l : List Char) : Except Unit (Json × List Char) :=
  let sr : List Char × List Char :=
    match l with
    | '-' :: r => (['-'], r)
    | _ => ([], l)
  let ds := sr.2.takeWhile Char.isDigit
  let r1 := sr.2.dropWhile Char.isDigit
  if ds = [] then Except.error ()
  else if 1 < ds.length && ds.head? == some '0' then Except.error ()
  else do
    let (fp, r2) ← parseFracPart r1
    let (ep, r3) ← parseExpPart r2
    Except.ok (Json.num (String.mk (sr.1 ++ ds ++ fp ++ ep)), r3)

mutual

/-- Read one JSON value; `fuel` bounds the recursion depth and is chosen
large enough by `jsonLoads`. -/
def parseVal : Nat → List Char → Except Unit (Json × List Char)
  | 0, _ => Except.error ()
  | fuel + 1, l =>
      match jws l with
      | 'n' :: 'u' :: 'l' :: 'l' :: r => Except.ok (Json.null, r)
      | 't' :: 'r' :: 'u' :: 'e' :: r => Except.ok (Json.bool true, r)
      | 'f' :: 'a' :: 'l' :: 's' :: 'e' :: r => Except.ok (Json.bool false, r)
      | '"' :: r => do
          let (cs, rest) ← parseStrChars r
          Except.ok (Json.str (String.mk cs), rest)
      | '[' :: r =>
          (match jws r with
           | ']' :: r2 => Except.ok (Json.arr [], r2)
           | _ => do
               let (xs, rest) ← parseElems fuel r
               Except.ok (Json.arr xs, rest))
      | '{' :: r =>
          (match jws r with
           | '}' :: r2 => Except.ok (Json.obj [], r2)
           | _ => do
               let (ms, rest) ← parseMembers fuel r
               Except.ok (Json.obj ms, rest))
      | l2 => parseNumber l2

/-- Read the comma-separated elements of a non-empty JSON array, up to
and including the closing bracket. -/
def parseElems : Nat → List Char → Except Unit (List Json × List Char)
  | 0, _ => Except.error ()
  | fuel + 1, l => do
      let (v, r) ← parseVal fuel l
      match jws r with
      | ',' :: r2 => do
          let (vs, rest) ← parseElems fuel r2
          Except.ok (v :: vs, rest)
      | ']' :: r2 => Except.ok ([v], r2)
      | _ => Except.error ()

/-- Read the members of a non-empty JSON object, up to and including the
closing brace. -/
def parseMembers : Nat → List Char → Except Unit (List (String × Json) × List Char)
  | 0, _ => Except.error ()
  | fuel + 1, l =>
      match jws l with
      | '"' :: r => do
          let (ks, r1) ← parseStrChars r
          (match jws r1 with
           | ':' :: r2 => do
               let (v, r3) ← parseVal fuel r2
               (match jws r3 with
                | ',' :: r4 => do
                    let (ms, rest) ← parseMembers fuel r4
                    Except.ok ((String.mk ks, v) :: ms, rest)
                | '}' :: r4 => Except.ok ([(String.mk ks, v)], r4)
                | _ => Except.error ())
           | _ => Except.error ())
      | _ => Except.error ()

end

/-- Model of Python `json.loads`: decode one JSON value and reject
trailing non-whitespace (`Extra data`); `none` is a raised
`json.JSONDecodeError`. -/
def jsonLoads (s : String) : Option Json :=
  let l := s.toList
  match parseVal (2 * l.length + 4) l with
  | Except.error _ => none
  | Except.ok (v, rest) => if jws rest = [] then some v else none

example : jsonLoads "null" = some Json.null := rfl
example : jsonLoads " \x7b\"a\": [1, -2.5e3]\x7d " =
    some (Json.obj [("a", Json.arr [Json.num "1", Json.num "-2.5e3"])]) := rfl
example : jsonLoads "\x7b" = none := rfl
example : jsonLoads "\x7b\"a\": 1\x7d;" = none := rfl
example : jsonLoads "" = none := rfl

/-! Python string helpers used by the script. -/

/-- The characters stripped by Python `str.strip()` (ASCII part). -/
def pyIsSpace (c : Char) : Bool :=
  c = ' ' || c = '\t' || c = '\n' || c = '\r' || c = Char.ofNat 11 || c = Char.ofNat 12

/-- Strip characters satisfying `p` from both ends of a character list. -/
def pyStripChars (p : Char → Bool) (l : List Char) : List Char :=
  ((l.dropWhile p).reverse.dropWhile p).reverse

/-- Model of Python `str.strip()`. -/
def pyStrip (s : String) : String := String.mk (pyStripChars pyIsSpace s.toList)

/-- Whether `pat` begins the list `l`. -/
def startsWithL : List Char → List Char → Bool
  | [], _ => true
  | _ :: _, [] => false
  | p :: ps, c :: cs => p == c && startsWithL ps cs

/-- Whether `pat` occurs somewhere in the list. -/
def hasSubL (pat : List Char) : List Char → Bool
  | [] => startsWithL pat []
  | c :: t => startsWithL pat (c :: t) || hasSubL pat t

/-- Everything after the first occurrence of `pat`, the empty list when
`pat` does not occur.  This is `s.split(pat, 1)[1]` for the case where
`pat` occurs in `s`, the only case the script reaches it in. -/
def afterFirstL (pat : List Char) : List Char → List Char
  | [] => []
  | c :: t =>
      if startsWithL pat (c :: t) then (c :: t).drop pat.length
      else afterFirstL pat t

/-- Model of Python `pat in s` (XPath `contains` on the script text). -/
def containsSub (pat s : String) : Bool := hasSubL pat.toList s.toList

/-- Model of `s.split(pat, 1)[1]` for `pat` occurring in `s`. -/
def afterFirst (pat s : String) : String := String.mk (afterFirstL pat.toList s.toList)

/-! Listing extraction (run_scrape.py lines 123-143). -/

/-- The assignment marker searched for in the page's script elements. -/
def MARKER : String := "PAGE_MODEL = "

/-- A fetched listing page, abstracted at the level the script inspects
it: its URL and the text contents of its script elements, in document
order.  `extract_property` only looks at
`//script[contains(., 'PAGE_MODEL = ')]/text()`. -/
structure Response where
  url : String
  scripts : List String

/-- The Python exceptions the extraction pipeline can raise. -/
inductive PyErr where
  | jsonDecode : PyErr
  | keyError : PyErr
  | typeError : PyErr
  deriving DecidableEq

/-- The first script text containing the marker, i.e. the `.get()` of
the XPath query in `extract_property` (line 126). -/
def markerScript (r : Response) : Option String :=
  (r.scripts.filter (fun s => containsSub MARKER s)).head?

/-- Model of `extract_property` (lines 123-132).  No marker script: print
a diagnostic and return `None` (`Json.null`).  Otherwise take the text
after the marker, strip it, `json.loads` it (`jsonDecode` error on
failure), and index the result with `"propertyData"` (`keyError` when the
key is absent, `typeError` when the decoded value is not a dict). -/
def extract_property (r : Response) : Except PyErr Json :=
  match markerScript r with
  | none => Except.ok Json.null
  | some s =>
      match jsonLoads (pyStrip (afterFirst MARKER s)) with
      | none => Except.error PyErr.jsonDecode
      | some j =>
          match j with
          | Json.obj fields =>
              (match fields.lookup "propertyData" with
               | some v => Except.ok v
               | none => Except.error PyErr.keyError)
          | _ => Except.error PyErr.typeError

/-- Model of `scrape_properties` (lines 136-143).  The argument is the
list of responses in the completion order produced by
`asyncio.as_completed`; each response is extracted and projected as it
completes, and an uncaught exception aborts the whole batch. -/
def scrape_properties : List Response → Except PyErr (List PropertyRecord)
  | [] => Except.ok []
  | r :: rs => do
      let d ← extract_property r
      let rest ← scrape_properties rs
      Except.ok (parse_property d :: rest)

/-! Location tokenization (run_scrape.py lines 146-153). -/

/-- The generator expression of `find_locations` line 149: uppercase the
query, then after every character at an even 1-based position append a
`/`.  The index argument is the 1-based position of the head of the
list. -/
def interleaveSlashes : Nat → List Char → List Char
  | _, [] => []
  | i, c :: t =>
      if i % 2 = 0 then c :: '/' :: interleaveSlashes (i + 1) t
      else c :: interleaveSlashes (i + 1) t

/-- Model of Python `str.strip('/')`: remove every leading and trailing
slash. -/
def stripSlashes (l : List Char) : List Char :=
  pyStripChars (fun c => c == '/') l

/-- Remove the trailing run of characters satisfying `p` (the
trailing-end half of `pyStripChars`). -/
def dropTrailing (p : Char → Bool) (l : List Char) : List Char :=
  (l.reverse.dropWhile p).reverse

/-- The tokenized location query as interpolated into the typeahead URL
(lines 149-150): the interleaved form of the uppercased query with
leading and trailing slashes stripped. -/
def find_locations_tokenize (query : String) : String :=
  String.mk (stripSlashes (interleaveSlashes 1 (query.toList.map Char.toUpper)))

example : find_locations_tokenize "edinburgh" = "ED/IN/BU/RG/H" := rfl
example : find_locations_tokenize "cornwall" = "CO/RN/WA/LL" := rfl

/-- The spec's description of tokenization: split the uppercased query
into groups of exactly two characters, the final group possibly a single
character for odd length. -/
def chunk2 : List Char → List (List Char)
  | [] => []
  | [c] => [[c]]
  | a :: b :: t => [a, b] :: chunk2 t

/-- Join character groups with a `/` between consecutive groups, no
leading or trailing delimiter. -/
def joinGroups : List (List Char) → List Char
  | [] => []
  | [g] => g
  | g :: gs => g ++ '/' :: joinGroups gs

/-- Tokenization as the spec words it (for the refinement comparison
with `find_locations_tokenize`): uppercase, two-character groups, joined
by `/`. -/
def spec_tokenize (query : String) : String :=
  String.mk (joinGroups (chunk2 (query.toList.map Char.toUpper)))

example : spec_tokenize "edinburgh" = "ED/IN/BU/RG/H" := rfl

/-! Search pagination (run_scrape.py lines 156-192). -/

/-- The page size, line 157. -/
def RESULTS_PER_PAGE : Nat := 24

/-- The hardcoded API result cap, line 182. -/
def max_api_results : Nat := 1000

/-- Python `range(start, stop, step)` for a positive step, written with
fuel; `pyRange` supplies enough fuel for the ranges the script builds. -/
def pyRangeAux : Nat → Nat → Nat → Nat → List Nat
  | 0, _, _, _ => []
  | fuel + 1, start, stop, step =>
      if start < stop then start :: pyRangeAux fuel (start + step) stop step
      else []

/-- Python `range(start, stop, step)` for a positive step. -/
def pyRange (start stop step : Nat) : List Nat :=
  pyRangeAux stop start stop step

/-- The offset loop of lines 183-187: walk the candidate offsets in
order and break at the first one at or beyond the API cap. -/
def collectOffsets : List Nat → List Nat
  | [] => []
  | o :: t => if max_api_results ≤ o then [] else o :: collectOffsets t

/-- The offsets of the later (concurrently fetched) pages requested by
`scrape_search` for a declared total count. -/
def otherOffsets (total : Nat) : List Nat :=
  collectOffsets (pyRange RESULTS_PER_PAGE total RESULTS_PER_PAGE)

/-- All page offsets `scrape_search` requests: offset 0 is the
unconditional synchronous first-page request of line 175, the rest come
from the loop of lines 183-187. -/
def requestedOffsets (total : Nat) : List Nat :=
  0 :: otherOffsets total

example : requestedOffsets 100 = [0, 24, 48, 72, 96] := rfl
example : requestedOffsets 0 = [0] := rfl

/-- Model of Python `str.replace(',', '')`: remove every comma. -/
def removeCommas (s : String) : String :=
  String.mk (s.toList.filter (fun c => c ≠ ','))

/-- Value of a decimal digit character. -/
def digitVal (c : Char) : Nat := c.toNat - 48

/-- Value of a big-endian list of decimal digit characters. -/
def digitsToNat (l : List Char) : Nat :=
  l.foldl (fun acc c => 10 * acc + digitVal c) 0

/-- Model of Python `int(str)` on ASCII input: strip whitespace, an
optional sign, then a non-empty run of decimal digits; anything else
raises `ValueError`, modelled as `none`. -/
def pyInt (s : String) : Option Int :=
  let l := pyStripChars pyIsSpace s.toList
  let sd : Int × List Char :=
    match l with
    | c :: t => if c = '-' then (-1, t) else if c = '+' then (1, t) else (1, c :: t)
    | [] => (1, [])
  if !sd.2.isEmpty && sd.2.all Char.isDigit then
    some (sd.1 * (digitsToNat sd.2 : Nat))
  else none

example : pyInt "1234" = some 1234 := rfl
example : pyInt " -42 " = some (-42) := rfl
example : pyInt "1,234" = none := rfl

/-- A decoded search-API page, at the level `scrape_search` inspects it:
the declared total-count string and the listing summaries. -/
structure SearchPage where
  resultCount : String
  properties : List Json

/-- Line 177: `int(first_page_data['resultCount'].replace(',', ''))`. -/
def parsedResultCount (p : SearchPage) : Option Int :=
  pyInt (removeCommas p.resultCount)

/-- The merge loop of lines 178 and 188-191: start from the first page's
summaries and extend with each later page's summaries as it completes. -/
def mergePages (firstProps : List Json) (completed : List (List Json)) : List Json :=
  completed.foldl (fun acc ps => acc ++ ps) firstProps

/-- Model of `scrape_search` (lines 156-192).  `fetched` maps a page
offset to the decoded search page the API returns for it; `sched` is the
completion order `asyncio.as_completed` yields the concurrently
dispatched later offsets in.  The first page is fetched synchronously,
its total count parsed (`none` models the `ValueError` of `int`), the
later offsets generated and fetched, and all summaries merged. -/
def scrape_search (sched : List Nat → List Nat) (fetched : Nat → SearchPage) :
    Option (List Json) :=
  match parsedResultCount (fetched 0) with
  | none => none
  | some total =>
      some (mergePages (fetched 0).properties
        ((sched (otherOffsets total.toNat)).map (fun o => (fetched o).properties)))

/-! A spec-side renderer of thousands-separated decimal strings, used to
state that the total-count parsing of `scrape_search` inverts it. -/

/-- Little-endian decimal digit characters of `n`, with fuel. -/
def natDigitsRev : Nat → Nat → List Char
  | 0, _ => []
  | fuel + 1, n =>
      if n = 0 then []
      else Char.ofNat (48 + n % 10) :: natDigitsRev fuel (n / 10)

/-- The plain decimal rendering of `n`. -/
def natDecimal (n : Nat) : List Char :=
  if n = 0 then ['0'] else (natDigitsRev (n + 1) n).reverse

/-- Groups of three characters counted from the right end. -/
def chunk3 : List Char → List (List Char)
  | [] => []
  | [a] => [[a]]
  | [a, b] => [[a, b]]
  | a :: b :: c :: t => [a, b, c] :: chunk3 t

/-- Split a list into groups of three counted from the right, the first
group possibly shorter. -/
def group3 (l : List Char) : List (List Char) :=
  ((chunk3 l.reverse).map List.reverse).reverse

/-- Join groups with a comma between consecutive groups. -/
def joinComma : List (List Char) → List Char
  | [] => []
  | [g] => g
  | g :: gs => g ++ ',' :: joinComma gs

/-- The thousands-separated rendering of `n`: decimal digits grouped in
threes from the right, groups joined by commas. -/
def specThousands (n : Nat) : String :=
  String.mk (joinComma (group3 (natDecimal n)))

example : specThousands 1234 = "1,234" := rfl
example : specThousands 0 = "0" := rfl
example : specThousands 1234567 = "1,234,567" := rfl

/-- Value of a little-endian list of decimal digit characters, used to
prove the decimal roundtrip. -/
def valLE : List Char → Nat
  | [] => 0
  | c :: t => digitVal c + 10 * valLE t

/-! Concrete pages used as witnesses and counterexamples. -/

/-- A page with no script containing the marker: not a listing page. -/
def noMarkerResponse : Response :=
  ⟨"https://www.rightmove.co.uk/not-a-listing", ["window.foo = 1;"]⟩

/-- A page whose marker script carries truncated JSON. -/
def badJsonResponse : Response :=
  ⟨"https://www.rightmove.co.uk/properties/1#/", ["var PAGE_MODEL = \x7b"]⟩

/-- A page whose marker script carries valid JSON with a
`propertyData` key. -/
def okJsonResponse : Response :=
  ⟨"https://www.rightmove.co.uk/properties/2#/",
   ["var PAGE_MODEL = \x7b\"propertyData\": \x7b\"id\": \"99\"\x7d\x7d"]⟩

/-- Another page with no marker script. -/
def plainResponse : Response :=
  ⟨"https://www.rightmove.co.uk/other", ["var x = 1;"]⟩

example : extract_property okJsonResponse =
    Except.ok (Json.obj [("id", Json.str "99")]) := rfl
example : extract_property badJsonResponse = Except.error PyErr.jsonDecode := rfl
example : extract_property noMarkerResponse = Except.ok Json.null := rfl

/-! Helper lemmas. -/

theorem lookup_map_eval (data : Json) :
    ∀ (m : List (String × JPath)) (k : String) (p : JPath),
      (m.map Prod.fst).Nodup → (k, p) ∈ m →
      (m.map (fun kp => (kp.1, evalJPath kp.2 data))).lookup k =
        some (evalJPath p data) := by
  intro m
  induction m with
  | nil => intro k p _ hmem; cases hmem
  | cons hd t ih =>
      intro k p hnd hmem
      obtain ⟨k0, p0⟩ := hd
      by_cases hk : k = k0
      · subst hk
        rcases List.mem_cons.mp hmem with heq | htail
        · obtain ⟨-, hp⟩ := Prod.mk.injEq .. ▸ heq
          subst hp
          simp [List.lookup]
        · exfalso
          have hkeys : k ∈ t.map Prod.fst :=
            List.mem_map.mpr ⟨(k, p), htail, rfl⟩
          exact (List.nodup_cons.mp (by simpa using hnd)).1 hkeys
      · have hbeq : (k == k0) = false := beq_eq_false_iff_ne.mpr hk
        rcases List.mem_cons.mp hmem with heq | htail
        · exact absurd (congrArg Prod.fst heq) hk
        · have := ih k p (List.nodup_cons.mp (by simpa using hnd)).2 htail
          simpa [List.lookup, hbeq] using this

theorem scrape_properties_cons_ok (r : Response) (rs : List Response) (j : Json)
    (h : extract_property r = Except.ok j) :
    scrape_properties (r :: rs) =
      (scrape_properties rs).map (fun l => parse_property j :: l) := by
  simp only [scrape_properties, h]
  cases scrape_properties rs <;> rfl

theorem scrape_properties_error_append (pre : List Response) (r : Response)
    (post : List Response) (e : PyErr)
    (hr : extract_property r = Except.error e)
    (hpre : ∀ x ∈ pre, ∃ j, extract_property x = Except.ok j) :
    scrape_properties (pre ++ r :: post) = Except.error e := by
  induction pre with
  | nil =>
      simp only [List.nil_append, scrape_properties, hr]
      rfl
  | cons x t ih =>
      obtain ⟨j, hj⟩ := hpre x (List.mem_cons_self x t)
      have ht : ∀ y ∈ t, ∃ j, extract_property y = Except.ok j :=
        fun y hy => hpre y (List.mem_cons_of_mem x hy)
      rw [List.cons_append, scrape_properties_cons_ok x (t ++ r :: post) j hj, ih ht]
      rfl

/-! Claim theorems. -/

/-- C4: for every decoded listing object and every field of the fixed
mapping, a query path that does not resolve (evaluates to the absent
value) makes `parse_property` store null under that output field; the
projection is a total function, so it never raises. -/
theorem parse_property_null_on_unresolved (data : Json) (k : String) (p : JPath)
    (hmem : (k, p) ∈ parse_map) (hnull : evalJPath p data = Json.null) :
    (parse_property data).lookup k = some Json.null := by
  have h := lookup_map_eval data parse_map k p (by decide) hmem
  rw [hnull] at h
  exact h

/-- Witness for C4 at a concrete non-dict object and the `id` field. -/
theorem parse_property_null_on_unresolved_witness :
    (parse_property (Json.bool true)).lookup "id" = some Json.null :=
  parse_property_null_on_unresolved (Json.bool true) "id" (JPath.chain ["id"])
    (by decide) rfl

/-- C5: projection is pure and deterministic — `parse_property` is a
function of the decoded object alone, so any two invocations on the
same object yield identical records. -/
theorem parse_property_deterministic (d1 d2 : Json) (h : d1 = d2) :
    parse_property d1 = parse_property d2 := by rw [h]

/-- Witness for C5 at a concrete object. -/
theorem parse_property_deterministic_witness :
    parse_property (Json.obj [("id", Json.num "7")]) =
      parse_property (Json.obj [("id", Json.num "7")]) :=
  parse_property_deterministic _ _ rfl

/-- C6: for every input object, `parse_property` returns one record
whose key list is exactly the mapping's key list — the 27 output fields,
in the mapping's insertion order, without duplicates. -/
theorem parse_property_schema (data : Json) :
    (parse_property data).map Prod.fst = parse_map.map Prod.fst ∧
    parse_map.map Prod.fst =
      ["id", "available", "archived", "phone", "bedrooms", "bathrooms", "type",
       "property_type", "tags", "description", "title", "subtitle", "price",
       "price_sqft", "address", "latitude", "longitude", "features", "history",
       "photos", "floorplans", "agency", "industryAffiliations",
       "nearest_airports", "nearest_stations", "sizings", "brochures"] ∧
    (parse_property data).length = 27 ∧
    (parse_map.map Prod.fst).Nodup :=
  ⟨rfl, rfl, rfl, by decide⟩

/-- C1 (amended): a listing page with no marker script extracts to the
absent result without raising, the other listings in the batch are
unaffected, and the offending item contributes the projection of the
absent result — a record whose 27 fields are all null — rather than no
record at all. -/
theorem no_marker_page_batch (r : Response) (rs : List Response)
    (h : markerScript r = none) :
    extract_property r = Except.ok Json.null ∧
    scrape_properties (r :: rs) =
      (scrape_properties rs).map (fun l => parse_property Json.null :: l) ∧
    (parse_property Json.null).map Prod.snd = List.replicate 27 Json.null := by
  have he : extract_property r = Except.ok Json.null := by
    simp [extract_property, h]
  exact ⟨he, scrape_properties_cons_ok r rs Json.null he, rfl⟩

/-- Witness for C1 at a concrete marker-less page. -/
theorem no_marker_page_batch_witness :
    extract_property noMarkerResponse = Except.ok Json.null ∧
    scrape_properties [noMarkerResponse] =
      (scrape_properties []).map (fun l => parse_property Json.null :: l) ∧
    (parse_property Json.null).map Prod.snd = List.replicate 27 Json.null :=
  no_marker_page_batch noMarkerResponse [] rfl

/-- C1 counterexample: a batch holding one marker-less page produces one
(all-null) record for it, not zero records — the offending item does
yield a record. -/
theorem no_marker_page_still_records :
    scrape_properties [noMarkerResponse] = Except.ok [parse_property Json.null] ∧
    scrape_properties [noMarkerResponse] ≠ Except.ok [] := by
  refine ⟨rfl, fun hc => ?_⟩
  exact List.cons_ne_nil _ _ (Except.ok.inj hc)

/-- C7: a marker page whose trailing text is not valid JSON makes
`extract_property` raise the decode error, and the error propagates
uncaught through `scrape_properties` (past any earlier successful
items) to the batch caller. -/
theorem invalid_json_propagates (pre : List Response) (r : Response)
    (post : List Response) (s : String)
    (hs : markerScript r = some s)
    (hbad : jsonLoads (pyStrip (afterFirst MARKER s)) = none)
    (hpre : ∀ x ∈ pre, ∃ j, extract_property x = Except.ok j) :
    extract_property r = Except.error PyErr.jsonDecode ∧
    scrape_properties (pre ++ r :: post) = Except.error PyErr.jsonDecode := by
  have he : extract_property r = Except.error PyErr.jsonDecode := by
    simp [extract_property, hs, hbad]
  exact ⟨he, scrape_properties_error_append pre r post _ he hpre⟩

/-- Witness for C7: truncated JSON after the marker aborts the batch. -/
theorem invalid_json_propagates_witness :
    extract_property badJsonResponse = Except.error PyErr.jsonDecode ∧
    scrape_properties ([] ++ badJsonResponse :: []) = Except.error PyErr.jsonDecode :=
  invalid_json_propagates [] badJsonResponse [] "var PAGE_MODEL = \x7b" rfl rfl
    (by intro x hx; exact absurd hx (List.not_mem_nil x))

/-- C10 (implicit): when every response in the batch extracts without
raising, `scrape_properties` returns exactly one record per response, in
completion order; a marker-less response contributes the projection of
the absent result, whose 27 fields are all null. -/
theorem scrape_properties_one_record_each (rs : List Response)
    (h : ∀ r ∈ rs, ∃ j, extract_property r = Except.ok j) :
    ∃ l, scrape_properties rs = Except.ok l ∧ l.length = rs.length ∧
      (∀ i (hi : i < rs.length) (hl : i < l.length),
        markerScript (rs.get ⟨i, hi⟩) = none →
        l.get ⟨i, hl⟩ = parse_property Json.null) ∧
      (parse_property Json.null).map Prod.snd = List.replicate 27 Json.null := by
  induction rs with
  | nil =>
      refine ⟨[], rfl, rfl, ?_, rfl⟩
      intro i hi
      exact absurd hi (Nat.not_lt_zero i)
  | cons r t ih =>
      obtain ⟨j, hj⟩ := h r (List.mem_cons_self r t)
      obtain ⟨l, hl, hlen, hnull, hrep⟩ :=
        ih (fun y hy => h y (List.mem_cons_of_mem r hy))
      refine ⟨parse_property j :: l, ?_, by simp [hlen], ?_, hrep⟩
      · rw [scrape_properties_cons_ok r t j hj, hl]
        rfl
      · intro i hi hl2 hm
        cases i with
        | zero =>
            have hm' : markerScript r = none := hm
            have hj2 : (Except.ok j : Except PyErr Json) = Except.ok Json.null := by
              rw [← hj]
              simp [extract_property, hm']
            cases Except.ok.inj hj2
            rfl
        | succ i2 =>
            exact hnull i2 (by simpa using hi) (by simpa using hl2) (by simpa using hm)

/-- Witness for C10 on a two-element batch: a marker page with valid
JSON followed by a marker-less page. -/
theorem scrape_properties_one_record_each_witness :
    ∃ l, scrape_properties [okJsonResponse, plainResponse] = Except.ok l ∧
      l.length = [okJsonResponse, plainResponse].length ∧
      (∀ i (hi : i < [okJsonResponse, plainResponse].length) (hl : i < l.length),
        markerScript ([okJsonResponse, plainResponse].get ⟨i, hi⟩) = none →
        l.get ⟨i, hl⟩ = parse_property Json.null) ∧
      (parse_property Json.null).map Prod.snd = List.replicate 27 Json.null :=
  scrape_properties_one_record_each [okJsonResponse, plainResponse] (by
    intro x hx
    rcases List.mem_cons.mp hx with h1 | hx2
    · exact ⟨Json.obj [("id", Json.str "99")], by rw [h1]; exact rfl⟩
    · rcases List.mem_cons.mp hx2 with h1 | hx3
      · exact ⟨Json.null, by rw [h1]; exact rfl⟩
      · exact absurd hx3 (List.not_mem_nil x))

theorem mergePages_eq_append (completed : List (List Json)) :
    ∀ first, mergePages first completed = first ++ completed.flatten := by
  induction completed with
  | nil => intro first; simp [mergePages]
  | cons ps t ih =>
      intro first
      have hstep : mergePages first (ps :: t) = mergePages (first ++ ps) t := rfl
      rw [hstep, ih (first ++ ps), List.flatten_cons, List.append_assoc]

/-- C9: in the merged list returned by `scrape_search`, the first page's
summaries (fetched synchronously before the concurrent dispatch of the
later offsets) form a prefix of the output, whatever completion order
the later pages arrive in; nothing constrains the order among the later
pages themselves. -/
theorem scrape_search_first_page_first (sched : List Nat → List Nat)
    (fetched : Nat → SearchPage) (l : List Json)
    (h : scrape_search sched fetched = some l) :
    l.take (fetched 0).properties.length = (fetched 0).properties ∧
    ∃ rest, l = (fetched 0).properties ++ rest := by
  unfold scrape_search at h
  cases hp : parsedResultCount (fetched 0) with
  | none => rw [hp] at h; cases h
  | some total =>
      rw [hp] at h
      have hl : l = (fetched 0).properties ++
          ((sched (otherOffsets total.toNat)).map
            (fun o => (fetched o).properties)).flatten := by
        rw [← Option.some.inj h, mergePages_eq_append]
      exact ⟨by rw [hl, List.take_left], ⟨_, hl⟩⟩

/-- A concrete constant search endpoint used as the C9 witness. -/
def constSearchPage : Nat → SearchPage := fun _ => ⟨"0", [Json.bool true]⟩

/-- Witness for C9 with a concrete single-page search. -/
theorem scrape_search_first_page_first_witness :
    ([Json.bool true] : List Json).take (constSearchPage 0).properties.length =
      (constSearchPage 0).properties ∧
    ∃ rest, ([Json.bool true] : List Json) = (constSearchPage 0).properties ++ rest :=
  scrape_search_first_page_first (fun l => l) constSearchPage [Json.bool true] rfl

/-! Decimal roundtrip lemmas for the total-count parsing (C8). -/

theorem digitVal_ofNat (m : Nat) (hm : m < 10) :
    digitVal (Char.ofNat (48 + m)) = m := by
  interval_cases m <;> rfl

theorem decimalChar_props (m : Nat) (hm : m < 10) :
    (Char.ofNat (48 + m)).isDigit = true ∧ pyIsSpace (Char.ofNat (48 + m)) = false ∧
    Char.ofNat (48 + m) ≠ ',' ∧ Char.ofNat (48 + m) ≠ '-' ∧ Char.ofNat (48 + m) ≠ '+' := by
  interval_cases m <;>
    exact ⟨rfl, rfl, by decide, by decide, by decide⟩

theorem digitsToNat_reverse (L : List Char) :
    ∀ acc, List.foldl (fun a c => 10 * a + digitVal c) acc L.reverse =
      acc * 10 ^ L.length + valLE L := by
  induction L with
  | nil => intro acc; simp [valLE]
  | cons c t ih =>
      intro acc
      rw [List.reverse_cons, List.foldl_append, ih acc]
      simp only [List.foldl, valLE, List.length_cons, pow_succ]
      ring

theorem valLE_natDigitsRev : ∀ fuel n, n < fuel → valLE (natDigitsRev fuel n) = n := by
  intro fuel
  induction fuel with
  | zero => intro n h; exact absurd h (Nat.not_lt_zero n)
  | succ f ih =>
      intro n h
      by_cases h0 : n = 0
      · subst h0; simp [natDigitsRev, valLE]
      · simp only [natDigitsRev, if_neg h0, valLE]
        rw [ih (n / 10) (by omega), digitVal_ofNat (n % 10) (by omega)]
        omega

theorem natDigitsRev_mem : ∀ fuel n c, c ∈ natDigitsRev fuel n →
    ∃ m, m < 10 ∧ c = Char.ofNat (48 + m) := by
  intro fuel
  induction fuel with
  | zero => intro n c hc; exact absurd hc (List.not_mem_nil c)
  | succ f ih =>
      intro n c hc
      simp only [natDigitsRev] at hc
      by_cases h0 : n = 0
      · rw [if_pos h0] at hc; exact absurd hc (List.not_mem_nil c)
      · rw [if_neg h0] at hc
        rcases List.mem_cons.mp hc with h | h
        · exact ⟨n % 10, by omega, h⟩
        · exact ih (n / 10) c h

theorem natDecimal_props (n : Nat) : ∀ c ∈ natDecimal n,
    c.isDigit = true ∧ pyIsSpace c = false ∧ c ≠ ',' ∧ c ≠ '-' ∧ c ≠ '+' := by
  intro c hc
  unfold natDecimal at hc
  by_cases h0 : n = 0
  · rw [if_pos h0] at hc
    have hc0 : c = '0' := List.mem_singleton.mp hc
    subst hc0
    exact ⟨rfl, rfl, by decide, by decide, by decide⟩
  · rw [if_neg h0] at hc
    obtain ⟨m, hm, rfl⟩ := natDigitsRev_mem (n + 1) n c (List.mem_reverse.mp hc)
    exact decimalChar_props m hm

theorem natDecimal_ne_nil (n : Nat) : natDecimal n ≠ [] := by
  unfold natDecimal
  by_cases h0 : n = 0
  · rw [if_pos h0]; exact List.cons_ne_nil _ _
  · rw [if_neg h0]
    intro h
    have h2 : natDigitsRev (n + 1) n = [] := List.reverse_eq_nil_iff.mp h
    have h3 := valLE_natDigitsRev (n + 1) n (Nat.lt_succ_self n)
    rw [h2] at h3
    simp [valLE] at h3
    exact h0 h3.symm

theorem digitsToNat_natDecimal (n : Nat) : digitsToNat (natDecimal n) = n := by
  unfold natDecimal
  by_cases h0 : n = 0
  · rw [if_pos h0, h0]; rfl
  · rw [if_neg h0]
    unfold digitsToNat
    rw [digitsToNat_reverse, valLE_natDigitsRev (n + 1) n (Nat.lt_succ_self n)]
    simp

theorem chunk3_join : ∀ l : List Char, (chunk3 l).flatten = l
  | [] => by simp [chunk3]
  | [a] => by simp [chunk3]
  | [a, b] => by simp [chunk3]
  | a :: b :: c :: t => by
      simp [chunk3, chunk3_join t]

theorem join_reverse_map_reverse (gs : List (List Char)) :
    ((gs.map List.reverse).reverse).flatten = gs.flatten.reverse := by
  induction gs with
  | nil => simp
  | cons g t ih => simp [ih]

theorem group3_join (l : List Char) : (group3 l).flatten = l := by
  unfold group3
  rw [join_reverse_map_reverse, chunk3_join, List.reverse_reverse]

theorem filter_joinComma : ∀ gs : List (List Char),
    (∀ g ∈ gs, ∀ c ∈ g, c ≠ ',') →
    (joinComma gs).filter (fun c => c ≠ ',') = gs.flatten
  | [] => by intro h; simp [joinComma]
  | [g] => by
      intro h
      simp only [joinComma, List.flatten, List.append_nil]
      exact List.filter_eq_self.mpr
        (fun c hc => by simpa using h g (List.mem_singleton.mpr rfl) c hc)
  | g :: g2 :: t => by
      intro h
      have ih := filter_joinComma (g2 :: t) (fun x hx => h x (List.mem_cons_of_mem g hx))
      have hstep : joinComma (g :: g2 :: t) = g ++ ',' :: joinComma (g2 :: t) := rfl
      rw [hstep, List.filter_append, List.filter_cons_of_neg (by decide), ih]
      have hg : g.filter (fun c => c ≠ ',') = g :=
        List.filter_eq_self.mpr
          (fun c hc => by simpa using h g (List.mem_cons_self g (g2 :: t)) c hc)
      rw [hg]
      rfl

theorem dropWhile_false {p : Char → Bool} : ∀ l : List Char,
    (∀ c ∈ l, p c = false) → l.dropWhile p = l
  | [] => by intro h; rfl
  | c :: t => by
      intro h
      simp [List.dropWhile_cons, h c (List.mem_cons_self c t)]

theorem pyStripChars_eq_self {p : Char → Bool} (l : List Char)
    (h : ∀ c ∈ l, p c = false) : pyStripChars p l = l := by
  unfold pyStripChars
  rw [dropWhile_false l h,
      dropWhile_false l.reverse (fun c hc => h c (List.mem_reverse.mp hc))]
  exact List.reverse_reverse l

theorem removeCommas_specThousands (n : Nat) :
    removeCommas (specThousands n) = String.mk (natDecimal n) := by
  unfold removeCommas specThousands
  have htl : (String.mk (joinComma (group3 (natDecimal n)))).toList =
      joinComma (group3 (natDecimal n)) := rfl
  rw [htl]
  have hcomma : ∀ g ∈ group3 (natDecimal n), ∀ c ∈ g, c ≠ ',' := by
    intro g hg c hc
    have hcmem : c ∈ (group3 (natDecimal n)).flatten :=
      List.mem_flatten.mpr ⟨g, hg, hc⟩
    rw [group3_join] at hcmem
    exact (natDecimal_props n c hcmem).2.2.1
  rw [filter_joinComma _ hcomma, group3_join]

theorem pyInt_digits (l : List Char) (hne : l ≠ [])
    (hd : ∀ c ∈ l, c.isDigit = true ∧ pyIsSpace c = false ∧ c ≠ '-' ∧ c ≠ '+') :
    pyInt (String.mk l) = some ((digitsToNat l : Nat) : Int) := by
  rcases l with - | ⟨c, t⟩
  · exact absurd rfl hne
  · obtain ⟨hcd, hcs, hcm, hcp⟩ := hd c (List.mem_cons_self c t)
    have hstrip : pyStripChars pyIsSpace (c :: t) = c :: t :=
      pyStripChars_eq_self _ (fun x hx => (hd x hx).2.1)
    have hall : (c :: t).all Char.isDigit = true :=
      List.all_eq_true.mpr (fun x hx => (hd x hx).1)
    simp only [pyInt]
    rw [show (String.mk (c :: t)).toList = c :: t from rfl, hstrip]
    simp only [if_neg hcm, if_neg hcp]
    rw [if_pos (by simp [hall])]
    simp

/-- C8: `scrape_search` obtains its pagination loop bound by stripping
the thousands separators from the declared total-count string and
converting to an integer: every thousands-separated decimal rendering of
`n` parses to `n`; in particular `"1,234"` parses to `1234`, and that
parsed value is what generates the later page offsets. -/
theorem scrape_search_parses_total (n : Nat) (props : List Json) :
    parsedResultCount ⟨specThousands n, props⟩ = some (n : Int) ∧
    parsedResultCount ⟨"1,234", props⟩ = some 1234 ∧
    scrape_search (fun l => l) (fun _ => ⟨"1,234", props⟩) =
      some (mergePages props ((otherOffsets 1234).map (fun _ => props))) := by
  refine ⟨?_, rfl, rfl⟩
  unfold parsedResultCount
  have hprops : ∀ c ∈ natDecimal n,
      c.isDigit = true ∧ pyIsSpace c = false ∧ c ≠ '-' ∧ c ≠ '+' := by
    intro c hc
    obtain ⟨h1, h2, _, h4, h5⟩ := natDecimal_props n c hc
    exact ⟨h1, h2, h4, h5⟩
  rw [removeCommas_specThousands,
      pyInt_digits (natDecimal n) (natDecimal_ne_nil n) hprops,
      digitsToNat_natDecimal]

/-! Pagination lemmas (C3). -/

theorem pyRangeAux_ge : ∀ fuel s stop step m, m ∈ pyRangeAux fuel s stop step → s ≤ m := by
  intro fuel
  induction fuel with
  | zero => intro s stop step m hm; exact absurd hm (List.not_mem_nil m)
  | succ f ih =>
      intro s stop step m hm
      simp only [pyRangeAux] at hm
      by_cases hs : s < stop
      · rw [if_pos hs] at hm
        rcases List.mem_cons.mp hm with h | h
        · omega
        · have := ih (s + step) stop step m h; omega
      · rw [if_neg hs] at hm; exact absurd hm (List.not_mem_nil m)

theorem mem_collect_pyRangeAux : ∀ fuel s stop m,
    m ∈ collectOffsets (pyRangeAux fuel s stop 24) ↔
      m ∈ pyRangeAux fuel s stop 24 ∧ m < 1000 := by
  intro fuel
  induction fuel with
  | zero => intro s stop m; simp [pyRangeAux, collectOffsets]
  | succ f ih =>
      intro s stop m
      simp only [pyRangeAux]
      by_cases hs : s < stop
      · rw [if_pos hs]
        simp only [collectOffsets, max_api_results]
        by_cases hcap : 1000 ≤ s
        · rw [if_pos hcap]
          constructor
          · intro hm; exact absurd hm (List.not_mem_nil m)
          · rintro ⟨hm, hlt⟩
            rcases List.mem_cons.mp hm with h | h
            · omega
            · have := pyRangeAux_ge f (s + 24) stop 24 m h; omega
        · rw [if_neg hcap]
          constructor
          · intro hm
            rcases List.mem_cons.mp hm with h | h
            · subst h; exact ⟨List.mem_cons_self _ _, by omega⟩
            · obtain ⟨h1, h2⟩ := (ih (s + 24) stop m).mp h
              exact ⟨List.mem_cons_of_mem s h1, h2⟩
          · rintro ⟨hm, hlt⟩
            rcases List.mem_cons.mp hm with h | h
            · subst h; exact List.mem_cons_self _ _
            · exact List.mem_cons_of_mem s ((ih (s + 24) stop m).mpr ⟨h, hlt⟩)
      · rw [if_neg hs]; simp [collectOffsets]

theorem mem_pyRangeAux : ∀ fuel s stop m, stop - s ≤ fuel →
    (m ∈ pyRangeAux fuel s stop 24 ↔ ∃ k, m = s + 24 * k ∧ m < stop) := by
  intro fuel
  induction fuel with
  | zero =>
      intro s stop m h
      constructor
      · intro hm; exact absurd hm (List.not_mem_nil m)
      · rintro ⟨k, rfl, hlt⟩; omega
  | succ f ih =>
      intro s stop m h
      simp only [pyRangeAux]
      by_cases hs : s < stop
      · rw [if_pos hs]
        constructor
        · intro hm
          rcases List.mem_cons.mp hm with h1 | h1
          · exact ⟨0, by omega, by omega⟩
          · obtain ⟨k, hk, hlt⟩ := (ih (s + 24) stop m (by omega)).mp h1
            exact ⟨k + 1, by omega, hlt⟩
        · rintro ⟨k, rfl, hlt⟩
          cases k with
          | zero => exact List.mem_cons.mpr (Or.inl (by omega))
          | succ k2 =>
              refine List.mem_cons_of_mem s ((ih (s + 24) stop _ (by omega)).mpr ?_)
              exact ⟨k2, by omega, hlt⟩
      · rw [if_neg hs]
        constructor
        · intro hm; exact absurd hm (List.not_mem_nil m)
        · rintro ⟨k, rfl, hlt⟩; omega

/-- C3 (amended): provided the declared total is at least 1, the set of
page offsets `scrape_search` requests is exactly the set of multiples of
the page size 24 that are strictly below both the declared total and the
1000 cap; reaching the cap just stops offset generation.  Offset 0 (the
synchronous first-page request) is issued unconditionally, which is why
the characterization needs a positive total.  total=100 gives offsets
[0, 24, 48, 72, 96]; total=2000 generates no offset at or above 1000. -/
theorem requestedOffsets_spec (total m : Nat) (h1 : 1 ≤ total) :
    (m ∈ requestedOffsets total ↔ m % 24 = 0 ∧ m < total ∧ m < 1000) ∧
    requestedOffsets 100 = [0, 24, 48, 72, 96] ∧
    (requestedOffsets 2000).all (fun o => o < 1000) = true := by
  refine ⟨?_, by decide, by decide⟩
  unfold requestedOffsets otherOffsets pyRange RESULTS_PER_PAGE
  constructor
  · intro hm
    rcases List.mem_cons.mp hm with h | h
    · subst h; omega
    · obtain ⟨hmem, hcap⟩ := (mem_collect_pyRangeAux total 24 total m).mp h
      obtain ⟨k, hk, hlt⟩ := (mem_pyRangeAux total 24 total m (by omega)).mp hmem
      omega
  · rintro ⟨hmod, hlt, hcap⟩
    by_cases h0 : m = 0
    · subst h0; exact List.mem_cons_self _ _
    · refine List.mem_cons_of_mem 0 ?_
      refine (mem_collect_pyRangeAux total 24 total m).mpr ⟨?_, hcap⟩
      exact (mem_pyRangeAux total 24 total m (by omega)).mpr
        ⟨m / 24 - 1, by omega, hlt⟩

/-- Witness for C3 at total=100. -/
theorem requestedOffsets_spec_witness :
    (48 ∈ requestedOffsets 100 ↔ 48 % 24 = 0 ∧ 48 < 100 ∧ 48 < 1000) ∧
    requestedOffsets 100 = [0, 24, 48, 72, 96] ∧
    (requestedOffsets 2000).all (fun o => o < 1000) = true :=
  requestedOffsets_spec 100 48 (by decide)

/-- C3 counterexample: with a declared total of 0 the code still
requests offset 0, although 0 is not strictly below the total, so the
claimed characterization of the requested offsets fails at total=0. -/
theorem requestedOffsets_total_zero_cex :
    0 ∈ requestedOffsets 0 ∧ ¬ (0 % 24 = 0 ∧ 0 < 0 ∧ 0 < 1000) := by
  exact ⟨List.mem_cons_self _ _, by omega⟩

/-! Tokenization lemmas (C2). -/

theorem char_toNat_ofNat (m : Nat) (h : m < 55296) : (Char.ofNat m).toNat = m := by
  unfold Char.ofNat
  rw [dif_pos (Or.inl h)]
  rfl

theorem toUpper_ne_slash (c : Char) (h : c ≠ '/') : c.toUpper ≠ '/' := by
  simp only [Char.toUpper]
  by_cases hc : c.toNat ≥ 97 ∧ c.toNat ≤ 122
  · rw [if_pos hc]
    intro he
    have h2 := congrArg Char.toNat he
    rw [char_toNat_ofNat (c.toNat - 32) (by omega)] at h2
    have h47 : Char.toNat '/' = 47 := rfl
    rw [h47] at h2
    omega
  · rw [if_neg hc]; exact h

theorem interleaveSlashes_parity : ∀ (t : List Char) (i j : Nat), i % 2 = j % 2 →
    interleaveSlashes i t = interleaveSlashes j t := by
  intro t
  induction t with
  | nil => intro i j h; rfl
  | cons c t2 ih =>
      intro i j h
      simp only [interleaveSlashes]
      by_cases hi : i % 2 = 0
      · rw [if_pos hi, if_pos (by omega : j % 2 = 0), ih (i + 1) (j + 1) (by omega)]
      · rw [if_neg hi, if_neg (by omega : ¬ j % 2 = 0), ih (i + 1) (j + 1) (by omega)]

theorem interleaveSlashes_two (a b : Char) (t : List Char) :
    interleaveSlashes 1 (a :: b :: t) = a :: b :: '/' :: interleaveSlashes 1 t := by
  simp only [interleaveSlashes]
  norm_num
  exact interleaveSlashes_parity t 3 1 (by norm_num)

theorem dropWhile_append_of_ne_nil {p : Char → Bool} : ∀ (u v : List Char),
    u.dropWhile p ≠ [] → (u ++ v).dropWhile p = u.dropWhile p ++ v := by
  intro u
  induction u with
  | nil => intro v h; exact absurd rfl h
  | cons c t ih =>
      intro v h
      by_cases hc : p c
      · rw [List.dropWhile_cons_of_pos hc] at h ⊢
        rw [List.cons_append, List.dropWhile_cons_of_pos hc]
        exact ih v h
      · rw [List.dropWhile_cons_of_neg hc, List.cons_append,
            List.dropWhile_cons_of_neg hc]

theorem dropTrailing_append {p : Char → Bool} (x y : List Char)
    (h : dropTrailing p y ≠ []) : dropTrailing p (x ++ y) = x ++ dropTrailing p y := by
  unfold dropTrailing at h ⊢
  have hne : y.reverse.dropWhile p ≠ [] := by
    intro hnil
    exact h (by rw [hnil]; rfl)
  rw [List.reverse_append, dropWhile_append_of_ne_nil y.reverse x.reverse hne,
      List.reverse_append, List.reverse_reverse]

theorem chunk2_ne_nil : ∀ (l : List Char), l ≠ [] → chunk2 l ≠ []
  | [] => by intro h; exact absurd rfl h
  | [c] => by intro h; exact List.cons_ne_nil _ _
  | a :: b :: t => by intro h; exact List.cons_ne_nil _ _

theorem joinGroups_chunk2_ne_nil : ∀ (l : List Char), l ≠ [] → joinGroups (chunk2 l) ≠ []
  | [] => by intro h; exact absurd rfl h
  | [c] => by intro h; exact List.cons_ne_nil _ _
  | a :: b :: t => by
      intro h
      simp only [chunk2]
      cases chunk2 t with
      | nil => exact List.cons_ne_nil _ _
      | cons g gs => exact List.cons_ne_nil _ _

theorem dropTrailing_interleave : ∀ (t : List Char), (∀ c ∈ t, c ≠ '/') →
    dropTrailing (fun c => c == '/') (interleaveSlashes 1 t) = joinGroups (chunk2 t)
  | [] => by intro h; rfl
  | [c] => by
      intro h
      have hc : c ≠ '/' := h c (List.mem_cons_self c [])
      have h1 : interleaveSlashes 1 [c] = [c] := by
        simp [interleaveSlashes]
      rw [h1]
      unfold dropTrailing
      rw [show ([c] : List Char).reverse = [c] from rfl,
          List.dropWhile_cons_of_neg (by simp [hc])]
      rfl
  | a :: b :: t => by
      intro h
      have ht : ∀ c ∈ t, c ≠ '/' := fun c hc => h c (by simp [hc])
      rw [interleaveSlashes_two]
      by_cases hte : t = []
      · subst hte
        have hb : b ≠ '/' := h b (by simp)
        have hi0 : interleaveSlashes 1 ([] : List Char) = [] := rfl
        rw [hi0]
        unfold dropTrailing
        rw [show ([a, b, '/'] : List Char).reverse = ['/', b, a] from rfl,
            List.dropWhile_cons_of_pos (by simp),
            List.dropWhile_cons_of_neg (by simp [hb])]
        rfl
      · have ih := dropTrailing_interleave t ht
        have hjoin_ne : joinGroups (chunk2 t) ≠ [] := joinGroups_chunk2_ne_nil t hte
        have hsplit : a :: b :: '/' :: interleaveSlashes 1 t =
            [a, b, '/'] ++ interleaveSlashes 1 t := rfl
        rw [hsplit, dropTrailing_append [a, b, '/'] (interleaveSlashes 1 t)
              (by rw [ih]; exact hjoin_ne), ih]
        rw [show chunk2 (a :: b :: t) = [a, b] :: chunk2 t from rfl]
        cases hg : chunk2 t with
        | nil => exact absurd (by rw [hg]; rfl) hjoin_ne
        | cons g gs => rfl

theorem stripSlashes_interleave (t : List Char) (h : ∀ c ∈ t, c ≠ '/') :
    stripSlashes (interleaveSlashes 1 t) =
      dropTrailing (fun c => c == '/') (interleaveSlashes 1 t) := by
  have hs : (interleaveSlashes 1 t).dropWhile (fun c => c == '/') =
      interleaveSlashes 1 t := by
    cases t with
    | nil => rfl
    | cons c t2 =>
        have hc : c ≠ '/' := h c (List.mem_cons_self c t2)
        have h1 : interleaveSlashes 1 (c :: t2) = c :: interleaveSlashes 2 t2 := by
          simp [interleaveSlashes]
        rw [h1, List.dropWhile_cons_of_neg (by simp [hc])]
  unfold stripSlashes pyStripChars dropTrailing
  rw [hs]

theorem chunk2_lengths : ∀ (l g : List Char), g ∈ chunk2 l →
    g.length = 2 ∨ g.length = 1
  | [] => by intro g hg; exact absurd hg (List.not_mem_nil g)
  | [c] => by
      intro g hg
      have hgc := List.mem_singleton.mp hg
      subst hgc
      exact Or.inr rfl
  | a :: b :: t => by
      intro g hg
      rcases List.mem_cons.mp hg with h1 | h1
      · subst h1; exact Or.inl rfl
      · exact chunk2_lengths t g h1

theorem chunk2_even : ∀ (l : List Char), l.length % 2 = 0 → ∀ g ∈ chunk2 l, g.length = 2
  | [] => by intro h g hg; exact absurd hg (List.not_mem_nil g)
  | [c] => by intro h g hg; exact absurd h (by norm_num)
  | a :: b :: t => by
      intro h g hg
      rcases List.mem_cons.mp hg with h1 | h1
      · subst h1; rfl
      · refine chunk2_even t ?_ g h1
        simp only [List.length_cons] at h
        omega

/-- C2 (amended): for every query containing no '/' character, the
tokenization of `find_locations` equals the uppercased query split into
groups of exactly two characters — a final single character for odd
length — joined by the '/' delimiter with no leading or trailing
delimiter, and "edinburgh" tokenizes to "ED/IN/BU/RG/H".  (For queries
that themselves contain '/', the trailing strip('/') departs from the
grouped form.) -/
theorem find_locations_tokenize_spec (q : String)
    (h : ∀ c ∈ q.toList, c ≠ '/') :
    find_locations_tokenize q = spec_tokenize q ∧
    (∀ g ∈ chunk2 (q.toList.map Char.toUpper), g.length = 2 ∨ g.length = 1) ∧
    (q.toList.length % 2 = 0 →
      ∀ g ∈ chunk2 (q.toList.map Char.toUpper), g.length = 2) ∧
    find_locations_tokenize "edinburgh" = "ED/IN/BU/RG/H" := by
  have hup : ∀ c ∈ q.toList.map Char.toUpper, c ≠ '/' := by
    intro c hc
    obtain ⟨c0, hc0, rfl⟩ := List.mem_map.mp hc
    exact toUpper_ne_slash c0 (h c0 hc0)
  refine ⟨?_, fun g hg => chunk2_lengths _ g hg, ?_, rfl⟩
  · unfold find_locations_tokenize spec_tokenize
    rw [stripSlashes_interleave _ hup, dropTrailing_interleave _ hup]
  · intro heven
    refine chunk2_even _ ?_
    rw [List.length_map]
    exact heven

/-- Witness for C2 at the query "edinburgh". -/
theorem find_locations_tokenize_spec_witness :
    find_locations_tokenize "edinburgh" = spec_tokenize "edinburgh" ∧
    (∀ g ∈ chunk2 ("edinburgh".toList.map Char.toUpper), g.length = 2 ∨ g.length = 1) ∧
    ("edinburgh".toList.length % 2 = 0 →
      ∀ g ∈ chunk2 ("edinburgh".toList.map Char.toUpper), g.length = 2) ∧
    find_locations_tokenize "edinburgh" = "ED/IN/BU/RG/H" :=
  find_locations_tokenize_spec "edinburgh" (by decide)

/-- C2 counterexample: the query "a/" (length 2) should, per the claim,
tokenize to its single uppercased two-character group "A/"; the code's
trailing strip('/') instead produces "A". -/
theorem find_locations_tokenize_cex :
    find_locations_tokenize "a/" = "A" ∧ spec_tokenize "a/" = "A/" ∧
    find_locations_tokenize "a/" ≠ spec_tokenize "a/" := ⟨rfl, rfl, by decide⟩
